import Mathlib

/-
Verification of the ripe-country-stat data-collection script (src/index.js).

The JavaScript source is shallowly embedded as executable Lean definitions:
pure string processing is translated directly, network and DNS effects are
modelled by an explicit environment of responses, the `try`/`catch` and
process-exit behaviour of `main` is modelled by an `Except`-valued pipeline
together with an explicit outcome record.  Machine numbers never overflow in
the modelled code paths (ASNs and prefix counts are non-negative integers),
so they are modelled by `Nat`.
-/

/-! ## Numeric keys: the model of the JS sort comparator

`array.sort((a, b) => (parseInt(a) - parseInt(b)))` in src/index.js:234-237
orders decimal ASN strings by numeric value.  `parseInt` on such strings
reads the leading run of decimal digits.  ECMAScript `Array.prototype.sort`
is stable, and a stable comparison sort is uniquely determined by the key,
so the sort itself is modelled by a stable insertion sort on the key. -/

/-- Numeric value of a list of decimal digit characters (most significant first). -/
def digitsVal (l : List Char) : Nat :=
  l.foldl (fun n c => n * 10 + (c.toNat - 48)) 0

/-- Model of `parseInt` on the decimal ASN strings that the comparator in
src/index.js receives: the value of the leading run of digit characters. -/
def jsKey (s : String) : Nat :=
  digitsVal (s.toList.takeWhile Char.isDigit)

/-- Stable insertion of `x` into `l` with respect to key `k`: `x` is placed
before the first element with a strictly larger key, hence after existing
elements with an equal key. -/
def insKey {α : Type} (k : α → Nat) (x : α) : List α → List α
  | [] => [x]
  | y :: ys => if k x ≤ k y then x :: y :: ys else y :: insKey k x ys

/-- Stable insertion sort by key `k`; the model of the (stable) ECMAScript
`Array.prototype.sort` with a `k`-difference comparator. -/
def sortKey {α : Type} (k : α → Nat) (l : List α) : List α :=
  l.foldr (insKey k) []

/-- Stable merge of two lists by key `k`, taking from the left list on ties. -/
def mergeKey {α : Type} (k : α → Nat) : List α → List α → List α
  | [], l2 => l2
  | l1, [] => l1
  | x :: xs, y :: ys =>
    if k x ≤ k y then x :: mergeKey k xs (y :: ys) else y :: mergeKey k (x :: xs) ys
termination_by l1 l2 => l1.length + l2.length

/-- The list is sorted non-decreasingly by key `k`. -/
def sortedKey {α : Type} (k : α → Nat) (l : List α) : Prop :=
  List.Chain' (fun a b => k a ≤ k b) l


/-! ## ASN extraction: the model of `COUNTRY_ASNS_REGEX` and `matchAll`

src/index.js:38 `const COUNTRY_ASNS_REGEX = /{?(AsnSingle\()(\d+)(\),? ?)}?/g`
and src/index.js:124-126 `getRegexGroupFromIndex` (Array.from of `matchAll`,
group index 2).  `matchAll` scans left to right for non-overlapping matches;
a match is the literal `AsnSingle(` followed by a maximal non-empty digit
run, a `)`, then an optional `,`, optional space and optional closing brace
(the optional leading brace and the optional suffix never contain the start
of another `AsnSingle(` token, so consuming them does not change the
extracted groups).  Group 2 is the digit run. -/

/-- Drop `c` from the front of the list when it is the head (the model of an
optional single-character regex piece). -/
def consumeOpt (c : Char) : List Char → List Char
  | [] => []
  | d :: rest => if d = c then rest else d :: rest

/-- The literal token `AsnSingle(` that precedes every captured digit run. -/
def asnSingleToken : List Char := "AsnSingle(".toList

/-- One left-to-right scan of `matchAll` with `COUNTRY_ASNS_REGEX`, collecting
capture group 2 of each match.  The fuel argument is an upper bound on the
number of scanning steps; each step consumes at least one character, so
`length + 1` fuel always suffices. -/
def extractAux : Nat → List Char → List (List Char)
  | 0, _ => []
  | _ + 1, [] => []
  | fuel + 1, c :: rest =>
    if asnSingleToken.isPrefixOf (c :: rest) then
      let after := (c :: rest).drop asnSingleToken.length
      let ds := after.takeWhile Char.isDigit
      if ds.isEmpty then extractAux fuel rest
      else
        match after.drop ds.length with
        | ')' :: r3 =>
          ds :: extractAux fuel (consumeOpt '\x7d' (consumeOpt ' ' (consumeOpt ',' r3)))
        | _ => extractAux fuel rest
    else extractAux fuel rest

/-- Model of `getRegexGroupFromIndex(str, COUNTRY_ASNS_REGEX, 2)`
(src/index.js:124-126): every digit run captured by the `AsnSingle(...)`
pattern, in text order. -/
def extractASNs (s : String) : List String :=
  (extractAux (s.toList.length + 1) s.toList).map String.mk

/-! ## `getCountryASNs` (src/index.js:226-252), data part -/

/-- Model of one `routed` / `non_routed` field as received from the
country-asns endpoint: `none` is an absent field, `some s` a string field. -/
def fieldASNs : Option String → List String
  | none => []
  | some s =>
    if s ≠ "" ∧ (s ≠ "" ∨ s ≠ "set()") then sortKey jsKey (extractASNs s) else []

/-- The record returned by `getCountryASNs` (src/index.js:244-251). -/
structure CountryASNSet where
  activeASNs : List String
  inactiveASNs : List String
  allASNs : List String
deriving DecidableEq

/-- The pure part of `getCountryASNs` (src/index.js:234-237): extract and
numerically sort the routed and non-routed ASN lists, then numerically sort
their concatenation.  The guard `s && (s !== "" || s !== "set()")` of the
source is kept verbatim: a missing or empty-string field is falsy and yields
`[]`, and the parenthesised disjunction is retained even though no string
falsifies it. -/
def getCountryASNs_pure (routed non_routed : Option String) : CountryASNSet :=
  let activeASNs := fieldASNs routed
  let inactiveASNs := fieldASNs non_routed
  ⟨activeASNs, inactiveASNs, sortKey jsKey (activeASNs ++ inactiveASNs)⟩

/-! ## Message classifier: `processRIPEmessages` (src/index.js:141-167)

The JS function walks the `messages` array of a RIPEstat response.  A
message is a `[severity, text]` pair; classification is on
`severity.toLowerCase()`.  An `"error"` severity throws `ripeStatError`
with the message text.  Other severities are formatted (with chalk colour
codes and a caller tag recovered from the stack; the caller is a parameter
here) and logged unless the formatted string was already logged
(`printedMessages`, src/index.js:48) or `ignoreMsg` is set.  The model
returns the new `printedMessages` state and the list of newly logged lines,
or the thrown error text. -/

/-- Model of `String.prototype.toLowerCase` on the ASCII range (all severity
strings the API and the claims use are ASCII). -/
def jsToLower (s : String) : String :=
  String.mk (s.toList.map Char.toLower)

/-- Chalk blue colouring as used for info severities (src/index.js:148). -/
def chalkBlue (s : String) : String := "\x1b[34m" ++ s ++ "\x1b[39m"

/-- Chalk yellow colouring as used for other severities (src/index.js:157). -/
def chalkYellow (s : String) : String := "\x1b[33m" ++ s ++ "\x1b[39m"

/-- The formatted log line for a non-error message (src/index.js:148,157):
the `"info"` case prints the literal word `info` in blue, every other
severity prints the raw severity in yellow. -/
def fmtMsg (caller sev text : String) : String :=
  if jsToLower sev = "info" then
    "RIPEstat " ++ chalkBlue "info" ++ " (" ++ caller ++ "): " ++ text
  else
    "RIPEstat " ++ chalkYellow sev ++ " (" ++ caller ++ "): " ++ text

/-- Model of `processRIPEmessages` (src/index.js:141-167).  Returns
`.error text` for the first message whose lowercased severity is
`"error"`; otherwise `.ok (printed, logged)` with the final
`printedMessages` state and the newly printed lines in order. -/
def processRIPEmessages (caller : String) :
    List (String × String) → Bool → List String →
    Except String (List String × List String)
  | [], _, printed => .ok (printed, [])
  | (sev, text) :: rest, ignoreMsg, printed =>
    if jsToLower sev = "error" then .error text
    else if fmtMsg caller sev text ∉ printed ∧ ignoreMsg = false then
      match processRIPEmessages caller rest ignoreMsg (printed ++ [fmtMsg caller sev text]) with
      | .error e => .error e
      | .ok (p, lg) => .ok (p, fmtMsg caller sev text :: lg)
    else processRIPEmessages caller rest ignoreMsg printed

/-- Text of the first message whose lowercased severity is `"error"`. -/
def firstError : List (String × String) → Option String
  | [] => none
  | (sev, text) :: rest =>
    if jsToLower sev = "error" then some text else firstError rest

/-! ## DNS name resolution: `strStrip` and `getASNnameOverDNS`
(src/index.js:173-178, 197-204) -/

/-- Whitespace as matched by the `\s` class of the two regexes in
`strStrip`, restricted to the ASCII range. -/
def isJsSpace (c : Char) : Bool :=
  c == ' ' || c == '\t' || c == '\n' || c == '\r' || c == '\x0b' || c == '\x0c'

/-- Model of `strStrip` (src/index.js:173-178): drop the leading and the
trailing whitespace run. -/
def strStrip (s : String) : String :=
  String.mk (((s.toList.dropWhile isJsSpace).reverse.dropWhile isJsSpace).reverse)

/-- Replace every non-overlapping occurrence of `pat` (scanning left to
right) by `repl`; the model of `String.prototype.replace` with a global
literal pattern.  Fuel bounds the scan; `length + 1` always suffices. -/
def replaceAllChars (pat repl : List Char) : Nat → List Char → List Char
  | 0, l => l
  | _ + 1, [] => []
  | fuel + 1, c :: rest =>
    if pat.isPrefixOf (c :: rest) then
      repl ++ replaceAllChars pat repl fuel ((c :: rest).drop pat.length)
    else c :: replaceAllChars pat repl fuel rest

/-- Split at every non-overlapping occurrence of `sep` (scanning left to
right); the model of `String.prototype.split` with a non-empty literal
separator.  Fuel bounds the scan; `length + 1` always suffices. -/
def splitOnChars (sep : List Char) : Nat → List Char → List (List Char)
  | 0, l => [l]
  | _ + 1, [] => [[]]
  | fuel + 1, c :: rest =>
    if sep.isPrefixOf (c :: rest) then
      [] :: splitOnChars sep fuel ((c :: rest).drop sep.length)
    else
      match splitOnChars sep fuel rest with
      | [] => [[c]]
      | f :: fs => (c :: f) :: fs

/-- String-level wrapper of `replaceAllChars`. -/
def jsReplaceAll (s pat repl : String) : String :=
  String.mk (replaceAllChars pat.toList repl.toList (s.toList.length + 1) s.toList)

/-- String-level wrapper of `splitOnChars`. -/
def jsSplit (s sep : String) : List String :=
  (splitOnChars sep.toList (s.toList.length + 1) s.toList).map String.mk

/-- Model of `str.slice(0, -4)`: drop the last four characters (everything
when the string has at most four characters). -/
def jsSliceDropLast4 (s : String) : String :=
  String.mk (s.toList.take (s.toList.length - 4))

/-- The pure part of `getASNnameOverDNS` (src/index.js:197-204) applied to
the first TXT record string: strip, rewrite every `" | "` to `"--||--"`,
split on `"--||--"`, take field index 4 and drop its last four characters.
`none` models the `TypeError` thrown when fewer than five fields exist
(`infoArray[4]` is `undefined`). -/
def getASNnameFromTXT (txt : String) : Option String :=
  let infoArray := jsSplit (jsReplaceAll (strStrip txt) " | " "--||--") "--||--"
  match infoArray[4]? with
  | none => none
  | some f => some (jsSliceDropLast4 f)

/-! ## Responses, environment and error taxonomy -/

/-- The fields of a country-asns response that `getCountryASNs` reads
(src/index.js:229-235): the diagnostic messages and the two set-literal
text fields of `data.countries[0]`.  A `none` field is absent in the JSON. -/
structure CountryASNsResponse where
  messages : List (String × String)
  routed : Option String
  non_routed : Option String

/-- The fields of a ris-prefixes response that `getOriginatedPrefixCount`
reads (src/index.js:209-221). -/
structure RISPrefixesResponse where
  messages : List (String × String)
  v4originating : Nat
  v6originating : Nat

/-- Error taxonomy of the run: `ripeStat` is the classified
`ripeStatError` thrown by the message classifier (src/index.js:50-62),
`generic` is any other thrown error (network, DNS, TypeError). -/
inductive RunError
  | ripeStat (msg : String)
  | generic (msg : String)
deriving DecidableEq

/-- The external world of one run: the country-asns response, and per ASN
the first TXT record string of the Cymru DNS lookup and the ris-prefixes
response.  `.error` models a transport or DNS failure (a rejected
promise). -/
structure Env where
  countryResp : Except String CountryASNsResponse
  dnsTxt : String → Except String String
  risResp : String → Except String RISPrefixesResponse

/-- Model of `getCountryASNs` (src/index.js:226-252) given the fetched
response: run the diagnostics through the classifier with suppression off,
then extract and sort the three ASN lists. -/
def getCountryASNs (resp : CountryASNsResponse) (printed : List String) :
    Except String (CountryASNSet × List String) :=
  match processRIPEmessages "getCountryASNs" resp.messages false printed with
  | .error t => .error t
  | .ok (p, _) => .ok (getCountryASNs_pure resp.routed resp.non_routed, p)

/-- Model of `getASNnameOverDNS` (src/index.js:197-204): a DNS failure or a
short TXT record surfaces as an unclassified (generic) error. -/
def getASNnameOverDNS (env : Env) (asn : String) : Except RunError String :=
  match env.dnsTxt asn with
  | .error m => .error (.generic m)
  | .ok txt =>
    match getASNnameFromTXT txt with
    | none => .error (.generic "TypeError: infoArray[4] is undefined")
    | some name => .ok name

/-- Model of `getOriginatedPrefixCount` (src/index.js:209-221): fetch the
ris-prefixes response, run its diagnostics through the classifier with
suppression on, then return the v4/v6 originating counts (and the
classifier state, which suppression leaves unchanged). -/
def getOriginatedPrefixCount (env : Env) (printed : List String) (asn : String) :
    Except RunError ((Nat × Nat) × List String) :=
  match env.risResp asn with
  | .error m => .error (.generic m)
  | .ok r =>
    match processRIPEmessages "getOriginatedPrefixCount" r.messages true printed with
    | .error t => .error (.ripeStat t)
    | .ok (p, _) => .ok ((r.v4originating, r.v6originating), p)

/-! ## The aggregation loops and the run (src/index.js:254-363) -/

/-- One output record (the object pushed to `finalArr`,
src/index.js:324-328 and 334-339). -/
structure ASNRecord where
  asn : String
  asnOrg : String
  prefixCount4 : Nat
  prefixCount6 : Nat
deriving DecidableEq

/-- Instrumentation state threaded through the loops: the classifier
dedup state and, for each of the two per-ASN lookups, the list of ASNs it
was invoked for, in call order. -/
structure LoopState where
  printed : List String
  dnsCalls : List String
  prefixCalls : List String
deriving DecidableEq

/-- The loop over `countryASNs.activeASNs` (src/index.js:321-330): for each
ASN resolve the name over DNS, then the prefix counts, and build a record;
the first error aborts the loop. -/
def resolveActive (env : Env) :
    List String → LoopState → Except RunError (List ASNRecord) × LoopState
  | [], st => (.ok [], st)
  | asn :: rest, st =>
    match getASNnameOverDNS env asn with
    | .error e => (.error e, ⟨st.printed, st.dnsCalls ++ [asn], st.prefixCalls⟩)
    | .ok asnOrg =>
      match getOriginatedPrefixCount env st.printed asn with
      | .error e => (.error e, ⟨st.printed, st.dnsCalls ++ [asn], st.prefixCalls ++ [asn]⟩)
      | .ok ((p4, p6), printed2) =>
        match resolveActive env rest ⟨printed2, st.dnsCalls ++ [asn], st.prefixCalls ++ [asn]⟩ with
        | (.error e, st2) => (.error e, st2)
        | (.ok recs, st2) => (.ok (⟨asn, asnOrg, p4, p6⟩ :: recs), st2)

/-- The loop over `countryASNs.inactiveASNs` (src/index.js:332-341): for
each ASN resolve the name over DNS only and fix the prefix counts at zero;
`getOriginatedPrefixCount` is never invoked here. -/
def resolveInactive (env : Env) :
    List String → LoopState → Except RunError (List ASNRecord) × LoopState
  | [], st => (.ok [], st)
  | asn :: rest, st =>
    match getASNnameOverDNS env asn with
    | .error e => (.error e, ⟨st.printed, st.dnsCalls ++ [asn], st.prefixCalls⟩)
    | .ok asnOrg =>
      match resolveInactive env rest ⟨st.printed, st.dnsCalls ++ [asn], st.prefixCalls⟩ with
      | (.error e, st2) => (.error e, st2)
      | (.ok recs, st2) => (.ok (⟨asn, asnOrg, 0, 0⟩ :: recs), st2)

/-- The terminal re-sort of `finalArr` (src/index.js:345). -/
def sortRecords (rs : List ASNRecord) : List ASNRecord :=
  sortKey (fun r => jsKey r.asn) rs

/-- Modelled from the spec: the CSV encoder.  `createCSV`
(src/index.js:106-116) delegates to the third-party `csv-stringify`
library, which is not part of this repository; per the spec it must emit
the fixed four-column header row and must quote (doubling embedded quote
characters) every field containing a comma, a quote character or a
newline. -/
def csvNeedsQuote (s : String) : Bool :=
  s.toList.any (fun c => c == ',' || c == '"' || c == '\n')

/-- Modelled from the spec: quote-escaping doubles every `"` character. -/
def csvEscapeChars : List Char → List Char
  | [] => []
  | c :: rest =>
    if c = '"' then '"' :: '"' :: csvEscapeChars rest else c :: csvEscapeChars rest

/-- Modelled from the spec: a field is emitted verbatim unless it contains
a comma, quote character or newline, in which case it is wrapped in quotes
with embedded quotes doubled. -/
def csvQuoteField (s : String) : String :=
  if csvNeedsQuote s then String.mk ('"' :: csvEscapeChars s.toList ++ ['"']) else s

/-- The fixed header row (src/index.js:109-114, column titles in order). -/
def csvHeader : String :=
  "AS Number,Organization Name,Announced IPv4 Prefix Count,Announced IPv6 Prefix Count"

/-- Modelled from the spec: one data row — the four fields of a record, in
the column order of src/index.js:109-114, comma-separated. -/
def csvRow (r : ASNRecord) : String :=
  csvQuoteField r.asn ++ "," ++ csvQuoteField r.asnOrg ++ "," ++
    csvQuoteField (toString r.prefixCount4) ++ "," ++ csvQuoteField (toString r.prefixCount6)

/-- Modelled from the spec: `createCSV` (src/index.js:106-116) — the header
row followed by one data row per record. -/
def createCSV (rs : List ASNRecord) : String :=
  csvHeader ++ "\n" ++ String.join (rs.map (fun r => csvRow r ++ "\n"))

/-- Inverse of `csvEscapeChars`: collapse doubled quote characters, and
fail on a lone quote character. -/
def csvUnescapeChars : List Char → Option (List Char)
  | [] => some []
  | c :: rest =>
    if c = '"' then
      match rest with
      | [] => none
      | d :: rest2 =>
        if d = '"' then (csvUnescapeChars rest2).map (fun l => '"' :: l) else none
    else (csvUnescapeChars rest).map (fun l => c :: l)

/-- A reader for a single encoded CSV field (character level): a field
starting with a quote character must end with one and its interior
un-escapes; a bare field must be free of comma, quote and newline
characters. -/
def csvDecodeChars : List Char → Option (List Char)
  | [] => some []
  | c :: rest =>
    if c = '"' then
      if rest.getLast? = some '"' then csvUnescapeChars rest.dropLast else none
    else if (c :: rest).any (fun d => d == ',' || d == '"' || d == '\n') then none
    else some (c :: rest)

/-- A reader for a single encoded CSV field, used to state that
`csvQuoteField` escapes correctly. -/
def csvDecodeField (s : String) : Option String :=
  (csvDecodeChars s.toList).map String.mk

/-- The run up to (and including) producing the CSV text, with the
instrumentation state (src/index.js:260-351): fetch the country ASN list,
short-circuit when it is empty (`.ok none`), otherwise run both loops,
re-sort and encode (`.ok (some csv)`); any error propagates. -/
def runPipeline (env : Env) : Except RunError (Option String) × LoopState :=
  match env.countryResp with
  | .error m => (.error (.generic m), ⟨[], [], []⟩)
  | .ok resp =>
    match getCountryASNs resp [] with
    | .error t => (.error (.ripeStat t), ⟨[], [], []⟩)
    | .ok (s, p1) =>
      if s.allASNs.isEmpty then (.ok none, ⟨p1, [], []⟩)
      else
        match resolveActive env s.activeASNs ⟨p1, [], []⟩ with
        | (.error e, st) => (.error e, st)
        | (.ok recsA, st2) =>
          match resolveInactive env s.inactiveASNs st2 with
          | (.error e, st) => (.error e, st)
          | (.ok recsI, st3) =>
            (.ok (some (createCSV (sortRecords (recsA ++ recsI)))), st3)

/-- The exit code chosen by the `catch` handler (src/index.js:352-358):
`exitWithRIPEerror` exits 0 for a classified `ripeStatError`,
`exitWithError` exits 1 otherwise. -/
def classifyExit : RunError → Nat
  | .ripeStat _ => 0
  | .generic _ => 1

/-- The observable outcome of one run: the CSV text written by
`fs.writeFileSync` (or `none` when no file is written), the process exit
code, and the per-ASN lookups that were performed. -/
structure RunOutcome where
  csvWritten : Option String
  exitCode : Nat
  dnsCalls : List String
  prefixCalls : List String
deriving DecidableEq

/-- Model of `main` (src/index.js:254-363): the pipeline inside the
`try` block, the `catch` handler classifying the error, and the
surrounding exit helpers (src/index.js:64-89). -/
def runMain (env : Env) : RunOutcome :=
  match runPipeline env with
  | (.ok none, st) => ⟨none, 0, st.dnsCalls, st.prefixCalls⟩
  | (.ok (some csv), st) => ⟨some csv, 0, st.dnsCalls, st.prefixCalls⟩
  | (.error e, st) => ⟨none, classifyExit e, st.dnsCalls, st.prefixCalls⟩


/-! ## Sorting and merging lemmas -/
theorem mergeKey_nil_left {α : Type} (k : α → Nat) (l : List α) :
    mergeKey k [] l = l := by
  cases l <;> simp [mergeKey]

theorem mergeKey_nil_right {α : Type} (k : α → Nat) (l : List α) :
    mergeKey k l [] = l := by
  cases l <;> simp [mergeKey]

theorem mergeKey_cons_cons {α : Type} (k : α → Nat) (x y : α) (xs ys : List α) :
    mergeKey k (x :: xs) (y :: ys) =
      if k x ≤ k y then x :: mergeKey k xs (y :: ys) else y :: mergeKey k (x :: xs) ys := by
  simp [mergeKey]

theorem insKey_cons_of_le {α : Type} (k : α → Nat) (x : α) (l : List α)
    (h : ∀ y, l.head? = some y → k x ≤ k y) : insKey k x l = x :: l := by
  cases l with
  | nil => rfl
  | cons y ys => simp [insKey, h y rfl]

theorem insKey_head? {α : Type} (k : α → Nat) (x : α) (l : List α) (z : α)
    (h : (insKey k x l).head? = some z) : z = x ∨ l.head? = some z := by
  cases l with
  | nil =>
    left
    simp [insKey] at h
    exact h.symm
  | cons y ys =>
    by_cases hxy : k x ≤ k y
    · left
      simp [insKey, if_pos hxy] at h
      exact h.symm
    · right
      simp [insKey, if_neg hxy] at h
      simp [h]

theorem mergeKey_head? {α : Type} (k : α → Nat) (l1 l2 : List α) (z : α)
    (h : (mergeKey k l1 l2).head? = some z) :
    l1.head? = some z ∨ l2.head? = some z := by
  cases l1 with
  | nil =>
    right
    rw [mergeKey_nil_left] at h
    exact h
  | cons x xs =>
    cases l2 with
    | nil =>
      left
      rw [mergeKey_nil_right] at h
      exact h
    | cons y ys =>
      rw [mergeKey_cons_cons] at h
      by_cases hxy : k x ≤ k y
      · rw [if_pos hxy] at h
        left
        simpa using h
      · rw [if_neg hxy] at h
        right
        simpa using h

theorem insKey_eq_mergeKey_single {α : Type} (k : α → Nat) (x : α) (l : List α) :
    insKey k x l = mergeKey k [x] l := by
  induction l with
  | nil => simp [insKey, mergeKey_nil_right]
  | cons y ys ih =>
    rw [mergeKey_cons_cons]
    by_cases h : k x ≤ k y
    · simp [insKey, if_pos h, mergeKey_nil_left]
    · simp [insKey, if_neg h, ih]

theorem sortedKey_insKey {α : Type} (k : α → Nat) (x : α) (l : List α)
    (h : sortedKey k l) : sortedKey k (insKey k x l) := by
  induction l with
  | nil => simp [insKey, sortedKey]
  | cons y ys ih =>
    have hy := (List.chain'_cons'.mp h).2
    by_cases hxy : k x ≤ k y
    · rw [insKey, if_pos hxy]
      exact List.chain'_cons'.mpr ⟨fun b hb => by simp at hb; simp [hb.symm, hxy], h⟩
    · rw [insKey, if_neg hxy]
      refine List.chain'_cons'.mpr ⟨?_, ih hy⟩
      intro b hb
      rcases insKey_head? k x ys b hb with rfl | hb2
      · exact le_of_lt (Nat.lt_of_not_le hxy)
      · exact (List.chain'_cons'.mp h).1 b hb2

theorem sortedKey_sortKey {α : Type} (k : α → Nat) (l : List α) :
    sortedKey k (sortKey k l) := by
  induction l with
  | nil => simp [sortKey, sortedKey]
  | cons x xs ih => exact sortedKey_insKey k x (sortKey k xs) ih

theorem sortKey_eq_self {α : Type} (k : α → Nat) (l : List α)
    (h : sortedKey k l) : sortKey k l = l := by
  induction l with
  | nil => rfl
  | cons x xs ih =>
    have hxs := (List.chain'_cons'.mp h).2
    show insKey k x (sortKey k xs) = x :: xs
    rw [ih hxs]
    exact insKey_cons_of_le k x xs (fun y hy => (List.chain'_cons'.mp h).1 y hy)

theorem insKey_mergeKey {α : Type} (k : α → Nat) :
    ∀ (l2 : List α), sortedKey k l2 → ∀ (x : α) (xs : List α), sortedKey k (x :: xs) →
      insKey k x (mergeKey k xs l2) = mergeKey k (x :: xs) l2 := by
  intro l2
  induction l2 with
  | nil =>
    intro _ x xs hs
    rw [mergeKey_nil_right, mergeKey_nil_right]
    exact insKey_cons_of_le k x xs (fun y hy => (List.chain'_cons'.mp hs).1 y hy)
  | cons y ys ih =>
    intro hl2 x xs hxxs
    have hys : sortedKey k ys := (List.chain'_cons'.mp hl2).2
    by_cases hxy : k x ≤ k y
    · rw [mergeKey_cons_cons, if_pos hxy]
      apply insKey_cons_of_le
      intro z hz
      rcases mergeKey_head? k xs (y :: ys) z hz with h1 | h2
      · exact (List.chain'_cons'.mp hxxs).1 z h1
      · simp at h2
        simpa [h2] using hxy
    · rw [mergeKey_cons_cons, if_neg hxy]
      cases xs with
      | nil =>
        rw [mergeKey_nil_left, insKey, if_neg hxy, insKey_eq_mergeKey_single]
      | cons w ws =>
        have hxw : k x ≤ k w := (List.chain'_cons'.mp hxxs).1 w rfl
        have hyw : ¬ k w ≤ k y := fun hwy => hxy (le_trans hxw hwy)
        rw [mergeKey_cons_cons, if_neg hyw, insKey, if_neg hxy,
          ih hys x (w :: ws) hxxs]

theorem sortKey_append_eq_mergeKey {α : Type} (k : α → Nat) (l1 l2 : List α)
    (h1 : sortedKey k l1) (h2 : sortedKey k l2) :
    sortKey k (l1 ++ l2) = mergeKey k l1 l2 := by
  induction l1 with
  | nil =>
    rw [List.nil_append, mergeKey_nil_left]
    exact sortKey_eq_self k l2 h2
  | cons x xs ih =>
    have hxs : sortedKey k xs := (List.chain'_cons'.mp h1).2
    show insKey k x (sortKey k (xs ++ l2)) = mergeKey k (x :: xs) l2
    rw [ih hxs, insKey_mergeKey k l2 h2 x xs h1]
/-! ## Classifier lemmas -/

theorem processRIPE_printed_mono (caller : String) :
    ∀ (msgs : List (String × String)) (ig : Bool) (p p1 lg : List String),
      processRIPEmessages caller msgs ig p = .ok (p1, lg) → ∃ ext, p1 = p ++ ext := by
  intro msgs
  induction msgs with
  | nil =>
    intro ig p p1 lg h
    simp [processRIPEmessages] at h
    exact ⟨[], by simp [h.1]⟩
  | cons m rest ih =>
    intro ig p p1 lg h
    obtain ⟨sev, text⟩ := m
    rw [processRIPEmessages] at h
    by_cases herr : jsToLower sev = "error"
    · rw [if_pos herr] at h
      exact absurd h (by simp)
    · rw [if_neg herr] at h
      by_cases hcond : fmtMsg caller sev text ∉ p ∧ ig = false
      · rw [if_pos hcond] at h
        cases hrec : processRIPEmessages caller rest ig (p ++ [fmtMsg caller sev text]) with
        | error e => rw [hrec] at h; exact absurd h (by simp)
        | ok pr =>
          obtain ⟨p2, lg2⟩ := pr
          rw [hrec] at h
          simp at h
          obtain ⟨ext, hext⟩ := ih ig (p ++ [fmtMsg caller sev text]) p2 lg2 hrec
          exact ⟨fmtMsg caller sev text :: ext, by rw [← h.1, hext]; simp⟩
      · rw [if_neg hcond] at h
        exact ih ig p p1 lg h

theorem processRIPE_fmt_mem (caller : String) :
    ∀ (msgs : List (String × String)) (p p1 lg : List String),
      processRIPEmessages caller msgs false p = .ok (p1, lg) →
      ∀ sev text, (sev, text) ∈ msgs →
        fmtMsg caller sev text ∈ p1 ∧ jsToLower sev ≠ "error" := by
  intro msgs
  induction msgs with
  | nil =>
    intro p p1 lg _ sev text hmem
    exact absurd hmem (by simp)
  | cons m rest ih =>
    intro p p1 lg h sev text hmem
    obtain ⟨sev0, text0⟩ := m
    rw [processRIPEmessages] at h
    by_cases herr : jsToLower sev0 = "error"
    · rw [if_pos herr] at h
      exact absurd h (by simp)
    · rw [if_neg herr] at h
      rcases List.mem_cons.mp hmem with heq | htail
      · simp only [Prod.mk.injEq] at heq
        obtain ⟨rfl, rfl⟩ := heq
        refine ⟨?_, herr⟩
        by_cases hcond : fmtMsg caller sev text ∉ p ∧ (false : Bool) = false
        · rw [if_pos hcond] at h
          cases hrec : processRIPEmessages caller rest false (p ++ [fmtMsg caller sev text]) with
          | error e => rw [hrec] at h; exact absurd h (by simp)
          | ok pr =>
            obtain ⟨p2, lg2⟩ := pr
            rw [hrec] at h
            simp at h
            obtain ⟨ext, hext⟩ := processRIPE_printed_mono caller rest false
              (p ++ [fmtMsg caller sev text]) p2 lg2 hrec
            rw [← h.1, hext]
            simp
        · rw [if_neg hcond] at h
          have hmemp : fmtMsg caller sev text ∈ p := by
            by_contra hc
            exact hcond ⟨hc, rfl⟩
          obtain ⟨ext, hext⟩ := processRIPE_printed_mono caller rest false p p1 lg h
          rw [hext]
          exact List.mem_append_left ext hmemp
      · by_cases hcond : fmtMsg caller sev0 text0 ∉ p ∧ (false : Bool) = false
        · rw [if_pos hcond] at h
          cases hrec : processRIPEmessages caller rest false (p ++ [fmtMsg caller sev0 text0]) with
          | error e => rw [hrec] at h; exact absurd h (by simp)
          | ok pr =>
            obtain ⟨p2, lg2⟩ := pr
            rw [hrec] at h
            simp at h
            have := ih (p ++ [fmtMsg caller sev0 text0]) p2 lg2 hrec sev text htail
            rw [← h.1]
            exact this
        · rw [if_neg hcond] at h
          exact ih p p1 lg h sev text htail

theorem processRIPE_no_new (caller : String) :
    ∀ (msgs : List (String × String)) (q : List String),
      (∀ sev text, (sev, text) ∈ msgs →
        fmtMsg caller sev text ∈ q ∧ jsToLower sev ≠ "error") →
      processRIPEmessages caller msgs false q = .ok (q, []) := by
  intro msgs
  induction msgs with
  | nil => intro q _; rfl
  | cons m rest ih =>
    intro q hq
    obtain ⟨sev, text⟩ := m
    have hhead := hq sev text (List.mem_cons_self _ _)
    rw [processRIPEmessages, if_neg hhead.2, if_neg (by simp [hhead.1])]
    exact ih q (fun s t ht => hq s t (List.mem_cons_of_mem _ ht))

theorem firstError_of_exists :
    ∀ (msgs : List (String × String)),
      (∃ m ∈ msgs, jsToLower m.1 = "error") → ∃ t, firstError msgs = some t := by
  intro msgs
  induction msgs with
  | nil => rintro ⟨m, hm, _⟩; exact absurd hm (by simp)
  | cons m rest ih =>
    rintro ⟨m0, hm0, herr0⟩
    obtain ⟨sev, text⟩ := m
    by_cases h : jsToLower sev = "error"
    · exact ⟨text, by rw [firstError, if_pos h]⟩
    · rcases List.mem_cons.mp hm0 with rfl | htail
      · exact absurd herr0 h
      · obtain ⟨t, ht⟩ := ih ⟨m0, htail, herr0⟩
        exact ⟨t, by rw [firstError, if_neg h]; exact ht⟩

theorem processRIPE_of_firstError (caller : String) :
    ∀ (msgs : List (String × String)) (ig : Bool) (p : List String) (t : String),
      firstError msgs = some t → processRIPEmessages caller msgs ig p = .error t := by
  intro msgs
  induction msgs with
  | nil => intro ig p t h; exact absurd h (by simp [firstError])
  | cons m rest ih =>
    intro ig p t h
    obtain ⟨sev, text⟩ := m
    rw [firstError] at h
    by_cases herr : jsToLower sev = "error"
    · rw [if_pos herr] at h
      rw [processRIPEmessages, if_pos herr]
      simpa using h
    · rw [if_neg herr] at h
      rw [processRIPEmessages, if_neg herr]
      by_cases hcond : fmtMsg caller sev text ∉ p ∧ ig = false
      · rw [if_pos hcond, ih ig (p ++ [fmtMsg caller sev text]) t h]
      · rw [if_neg hcond]
        exact ih ig p t h

/-! ## Loop lemmas -/

theorem resolveInactive_prefixCalls (env : Env) :
    ∀ (l : List String) (st : LoopState),
      ((resolveInactive env l st).2).prefixCalls = st.prefixCalls := by
  intro l
  induction l with
  | nil => intro st; rfl
  | cons asn rest ih =>
    intro st
    rw [resolveInactive]
    split
    · rfl
    · split
      next recs st2 heq =>
        have := ih ⟨st.printed, st.dnsCalls ++ [asn], st.prefixCalls⟩
        rw [heq] at this
        exact this
      next recs st2 heq =>
        have := ih ⟨st.printed, st.dnsCalls ++ [asn], st.prefixCalls⟩
        rw [heq] at this
        exact this

theorem resolveInactive_ok (env : Env) :
    ∀ (l : List String) (st : LoopState) (recs : List ASNRecord) (st2 : LoopState),
      resolveInactive env l st = (.ok recs, st2) →
      recs.map (fun r => r.asn) = l ∧
        ∀ r ∈ recs, r.prefixCount4 = 0 ∧ r.prefixCount6 = 0 := by
  intro l
  induction l with
  | nil =>
    intro st recs st2 h
    rw [resolveInactive] at h
    simp at h
    rcases h with ⟨rfl, rfl⟩
    simp
  | cons asn rest ih =>
    intro st recs st2 h
    rw [resolveInactive] at h
    split at h
    · exact absurd h (by simp)
    · split at h
      · exact absurd h (by simp)
      next asnOrg recs2 st3 heq =>
        simp at h
        obtain ⟨hrecs, hst⟩ := h
        have ihr := ih ⟨st.printed, st.dnsCalls ++ [asn], st.prefixCalls⟩ recs2 st3 heq
        subst hrecs
        constructor
        · simp [ihr.1]
        · intro r hr
          rcases List.mem_cons.mp hr with rfl | htail
          · exact ⟨rfl, rfl⟩
          · exact ihr.2 r htail

theorem resolveActive_ok_prefixCalls (env : Env) :
    ∀ (l : List String) (st : LoopState) (recs : List ASNRecord) (st2 : LoopState),
      resolveActive env l st = (.ok recs, st2) →
      st2.prefixCalls = st.prefixCalls ++ l := by
  intro l
  induction l with
  | nil =>
    intro st recs st2 h
    rw [resolveActive] at h
    simp at h
    rcases h with ⟨rfl, rfl⟩
    simp
  | cons asn rest ih =>
    intro st recs st2 h
    rw [resolveActive] at h
    split at h
    · exact absurd h (by simp)
    · split at h
      · exact absurd h (by simp)
      next p4 p6 printed2 heqpc =>
        split at h
        · exact absurd h (by simp)
        next recs2 st3 heq =>
          simp at h
          obtain ⟨hrecs, hst⟩ := h
          have ihr := ih ⟨printed2, st.dnsCalls ++ [asn], st.prefixCalls ++ [asn]⟩ recs2 st3 heq
          subst hst
          rw [ihr]
          simp

/-! ## CSV encoder lemmas -/

theorem string_mk_toList (s : String) : String.mk s.toList = s := by
  cases s
  rfl

theorem csvUnescape_escape (l : List Char) :
    csvUnescapeChars (csvEscapeChars l) = some l := by
  induction l with
  | nil => rfl
  | cons c rest ih =>
    by_cases hc : c = '"'
    · subst hc
      simp [csvEscapeChars, csvUnescapeChars, ih]
    · simp only [csvEscapeChars, if_neg hc]
      rw [csvUnescapeChars.eq_def]
      simp [hc, ih]

theorem csvDecodeChars_toList (s : String) :
    (String.mk s.toList).toList = s.toList := rfl

theorem csvDecode_quote (s : String) :
    csvDecodeField (csvQuoteField s) = some s := by
  by_cases h : csvNeedsQuote s
  · rw [csvQuoteField, if_pos h]
    show ((csvDecodeChars ('"' :: (csvEscapeChars s.toList ++ ['"']))).map String.mk) = some s
    rw [csvDecodeChars, if_pos rfl, List.getLast?_concat, if_pos rfl,
      List.dropLast_concat, csvUnescape_escape]
    simp [string_mk_toList]
  · rw [csvQuoteField, if_neg h]
    have hany : s.toList.any (fun c => c == ',' || c == '"' || c == '\n') = false := by
      simpa [csvNeedsQuote] using h
    rw [csvDecodeField]
    cases hcs : s.toList with
    | nil =>
      have hs : s = "" := by
        have hmk := string_mk_toList s
        rw [hcs] at hmk
        exact hmk.symm
      subst hs
      rfl
    | cons c rest =>
      rw [hcs] at hany
      have hc : ¬ c = '"' := by
        intro hceq
        subst hceq
        simp at hany
      rw [csvDecodeChars, if_neg hc, if_neg (by rw [hany]; simp), ← hcs]
      simp [string_mk_toList]

/-! ## Claim theorems -/

theorem sortedKey_fieldASNs (o : Option String) : sortedKey jsKey (fieldASNs o) := by
  cases o with
  | none => simp [fieldASNs, sortedKey]
  | some s =>
    simp only [fieldASNs]
    split
    · exact sortedKey_sortKey jsKey _
    · simp [sortedKey]

/-- C1 is refuted as stated: for a routed field that repeats an ASN token,
`\x7bAsnSingle(701), AsnSingle(701)\x7d`, the code returns
`activeASNs = ["701", "701"]`, which is not sorted strictly ascending by
numeric value (the code never de-duplicates). -/
theorem c1_counterexample :
    getCountryASNs ⟨[], some "\x7bAsnSingle(701), AsnSingle(701)\x7d", some ""⟩ [] =
      .ok (⟨["701", "701"], [], ["701", "701"]⟩, []) ∧
    ¬ List.Chain' (fun a b => jsKey a < jsKey b) ["701", "701"] :=
  ⟨by rfl, fun h => absurd ((List.chain'_cons'.mp h).1 "701" rfl) (by decide)⟩

/-- C1 (amended): for every routed / non-routed field pair, `getCountryASNs`
returns `activeASNs` and `inactiveASNs` each sorted non-decreasingly
(ascending, but not strictly when a source field repeats an ASN token) by
numeric ASN value, and `allASNs` equal to the stable numeric-ascending
merge of `activeASNs` and `inactiveASNs`. -/
theorem c1_sorted_and_merge (routed non_routed : Option String) :
    sortedKey jsKey (getCountryASNs_pure routed non_routed).activeASNs ∧
    sortedKey jsKey (getCountryASNs_pure routed non_routed).inactiveASNs ∧
    (getCountryASNs_pure routed non_routed).allASNs =
      mergeKey jsKey (getCountryASNs_pure routed non_routed).activeASNs
        (getCountryASNs_pure routed non_routed).inactiveASNs :=
  ⟨sortedKey_fieldASNs routed, sortedKey_fieldASNs non_routed,
    sortKey_append_eq_mergeKey jsKey (fieldASNs routed) (fieldASNs non_routed)
      (sortedKey_fieldASNs routed) (sortedKey_fieldASNs non_routed)⟩

/-- C2: extraction pattern-matches `AsnSingle(digits)` tokens: the input
`\x7bAsnSingle(701), AsnSingle(702)\x7d` yields `["701", "702"]`, and a
missing, empty or explicitly-empty-set (`set()`) field yields the empty
list (for `set()` because the pattern has no match there). -/
theorem c2_extraction :
    extractASNs "\x7bAsnSingle(701), AsnSingle(702)\x7d" = ["701", "702"] ∧
    fieldASNs (some "\x7bAsnSingle(701), AsnSingle(702)\x7d") = ["701", "702"] ∧
    fieldASNs none = [] ∧
    fieldASNs (some "") = [] ∧
    fieldASNs (some "set()") = [] :=
  ⟨by rfl, by rfl, rfl, by rfl, by rfl⟩

/-- C3 is refuted as stated: `slice(0, -4)` drops exactly the last four
characters of field index 4, so for the documented TXT payload the result
keeps a trailing space and is not `"AT&T SERVICES, INC."`. -/
theorem c3_counterexample :
    getASNnameFromTXT " 701 | US | arin | 1990-01-01 | AT&T SERVICES, INC. XXXX" ≠
      some "AT&T SERVICES, INC." := by
  decide

/-- C3 (amended): organization-name resolution strips surrounding
whitespace, splits on the pipe delimiter with its surrounding spaces,
takes field index 4 and drops that field's last four characters; for the
documented TXT payload it returns exactly `"AT&T SERVICES, INC. "` (with
the field's trailing space kept, since only the last four characters are
dropped). -/
theorem c3_org_name :
    getASNnameFromTXT " 701 | US | arin | 1990-01-01 | AT&T SERVICES, INC. XXXX" =
      some "AT&T SERVICES, INC. " ∧
    ∀ txt : String,
      getASNnameFromTXT txt =
        ((jsSplit (jsReplaceAll (strStrip txt) " | " "--||--") "--||--")[4]?).map
          jsSliceDropLast4 := by
  constructor
  · rfl
  · intro txt
    simp only [getASNnameFromTXT]
    cases (jsSplit (jsReplaceAll (strStrip txt) " | " "--||--") "--||--")[4]? <;> rfl

/-- C4: a diagnostic message list containing a message with error severity
makes the classifier abort with `ripeStatError` carrying the text of the
first such message, regardless of the suppress flag; consequently
`getOriginatedPrefixCount` fails on such a response before its data fields
(the prefix counts) influence the result. -/
theorem c4_error_aborts :
    (∀ (caller : String) (msgs : List (String × String)) (ig : Bool) (p : List String),
      (∃ m ∈ msgs, jsToLower m.1 = "error") →
      ∃ t, firstError msgs = some t ∧
        processRIPEmessages caller msgs ig p = .error t) ∧
    (∀ (env : Env) (asn : String) (printed : List String) (r : RISPrefixesResponse),
      env.risResp asn = .ok r →
      (∃ m ∈ r.messages, jsToLower m.1 = "error") →
      ∃ t, firstError r.messages = some t ∧
        getOriginatedPrefixCount env printed asn = .error (.ripeStat t)) := by
  constructor
  · intro caller msgs ig p hex
    obtain ⟨t, ht⟩ := firstError_of_exists msgs hex
    exact ⟨t, ht, processRIPE_of_firstError caller msgs ig p t ht⟩
  · intro env asn printed r hr hex
    obtain ⟨t, ht⟩ := firstError_of_exists r.messages hex
    refine ⟨t, ht, ?_⟩
    have hproc := processRIPE_of_firstError "getOriginatedPrefixCount" r.messages true printed t ht
    simp [getOriginatedPrefixCount, hr, hproc]

/-- Witness for C4 at a concrete error message and response. -/
theorem c4_error_aborts_witness :
    (∃ t, firstError [("error", "boom")] = some t ∧
      processRIPEmessages "getCountryASNs" [("error", "boom")] false [] = .error t) ∧
    (∃ t, firstError [("error", "boom")] = some t ∧
      getOriginatedPrefixCount
        ⟨.ok ⟨[], none, none⟩, fun _ => .ok "", fun _ => .ok ⟨[("error", "boom")], 5, 7⟩⟩
        [] "701" = .error (.ripeStat t)) :=
  ⟨c4_error_aborts.1 "getCountryASNs" [("error", "boom")] false []
      ⟨("error", "boom"), by simp, by decide⟩,
    c4_error_aborts.2
      ⟨.ok ⟨[], none, none⟩, fun _ => .ok "", fun _ => .ok ⟨[("error", "boom")], 5, 7⟩⟩
      "701" [] ⟨[("error", "boom")], 5, 7⟩ rfl
      ⟨("error", "boom"), by simp, by decide⟩⟩

/-- C5: on the success path of the two loops, the prefix-count lookup is
invoked exactly for the active ASNs in order (the inactive loop never
invokes it), and every record built from the inactive list carries
`prefixCount4 = 0` and `prefixCount6 = 0` and the inactive ASNs in order,
for every environment (any upstream data). -/
theorem c5_inactive_zero (env : Env) (active inactive : List String)
    (st stA stI : LoopState) (recsA recsI : List ASNRecord)
    (hA : resolveActive env active st = (.ok recsA, stA))
    (hI : resolveInactive env inactive stA = (.ok recsI, stI)) :
    (∀ r ∈ recsI, r.prefixCount4 = 0 ∧ r.prefixCount6 = 0) ∧
    recsI.map (fun r => r.asn) = inactive ∧
    stI.prefixCalls = stA.prefixCalls ∧
    stA.prefixCalls = st.prefixCalls ++ active := by
  have hio := resolveInactive_ok env inactive stA recsI stI hI
  have hpc := resolveInactive_prefixCalls env inactive stA
  rw [hI] at hpc
  exact ⟨hio.2, hio.1, hpc, resolveActive_ok_prefixCalls env active st recsA stA hA⟩

/-- Witness for C5 at a concrete environment with one active and one
inactive ASN. -/
theorem c5_inactive_zero_witness :
    (∀ r ∈ [ASNRecord.mk "1" "NAME" 0 0],
      r.prefixCount4 = 0 ∧ r.prefixCount6 = 0) ∧
    [ASNRecord.mk "1" "NAME" 0 0].map (fun r => r.asn) = ["1"] ∧
    (["2"] : List String) = ["2"] ∧
    (["2"] : List String) = [] ++ ["2"] :=
  c5_inactive_zero
    ⟨.ok ⟨[], none, none⟩,
      fun _ => .ok " 1 | TR | ripencc | 2000-01-01 | NAME, TR",
      fun _ => .ok ⟨[], 3, 4⟩⟩
    ["2"] ["1"] ⟨[], [], []⟩ ⟨[], ["2"], ["2"]⟩ ⟨[], ["2", "1"], ["2"]⟩
    [⟨"2", "NAME", 3, 4⟩] [⟨"1", "NAME", 0, 0⟩] (by rfl) (by rfl)

/-- C6: when the pipeline raises any error, no CSV text is produced and the
exit code is `classifyExit` of the error: 0 for a classified
`ripeStatError`, 1 for an unclassified error. -/
theorem c6_error_exit (env : Env) (e : RunError) (st : LoopState)
    (h : runPipeline env = (.error e, st)) :
    (runMain env).csvWritten = none ∧
    (runMain env).exitCode = classifyExit e ∧
    (∀ m, e = RunError.ripeStat m → (runMain env).exitCode = 0) ∧
    (∀ m, e = RunError.generic m → (runMain env).exitCode = 1) := by
  have hrm : runMain env = ⟨none, classifyExit e, st.dnsCalls, st.prefixCalls⟩ := by
    simp [runMain, h]
  refine ⟨by rw [hrm], by rw [hrm], ?_, ?_⟩
  · intro m hm
    rw [hrm, hm]
    rfl
  · intro m hm
    rw [hrm, hm]
    rfl

/-- Witness for C6: a classified error run exits 0 with no CSV, and an
unclassified (transport) error run exits 1 with no CSV. -/
theorem c6_error_exit_witness :
    (runMain ⟨.ok ⟨[("error", "kaput")], some "", some ""⟩,
      fun _ => .error "x", fun _ => .error "x"⟩).csvWritten = none ∧
    (runMain ⟨.ok ⟨[("error", "kaput")], some "", some ""⟩,
      fun _ => .error "x", fun _ => .error "x"⟩).exitCode = 0 ∧
    (runMain ⟨.error "down", fun _ => .error "x", fun _ => .error "x"⟩).csvWritten = none ∧
    (runMain ⟨.error "down", fun _ => .error "x", fun _ => .error "x"⟩).exitCode = 1 :=
  ⟨(c6_error_exit ⟨.ok ⟨[("error", "kaput")], some "", some ""⟩,
        fun _ => .error "x", fun _ => .error "x"⟩
      (.ripeStat "kaput") ⟨[], [], []⟩ (by rfl)).1,
    (c6_error_exit ⟨.ok ⟨[("error", "kaput")], some "", some ""⟩,
        fun _ => .error "x", fun _ => .error "x"⟩
      (.ripeStat "kaput") ⟨[], [], []⟩ (by rfl)).2.2.1 "kaput" rfl,
    (c6_error_exit ⟨.error "down", fun _ => .error "x", fun _ => .error "x"⟩
      (.generic "down") ⟨[], [], []⟩ (by rfl)).1,
    (c6_error_exit ⟨.error "down", fun _ => .error "x", fun _ => .error "x"⟩
      (.generic "down") ⟨[], [], []⟩ (by rfl)).2.2.2 "down" rfl⟩

/-- C7: when the fetched country ASN list has an empty `allASNs`, the run
short-circuits: no per-ASN lookup of either kind is performed, no CSV text
is produced, and the exit code is 0. -/
theorem c7_zero_asn_short_circuit (env : Env) (resp : CountryASNsResponse)
    (s : CountryASNSet) (p : List String)
    (h1 : env.countryResp = .ok resp)
    (h2 : getCountryASNs resp [] = .ok (s, p))
    (h3 : s.allASNs = []) :
    runMain env = ⟨none, 0, [], []⟩ := by
  have hp : runPipeline env = (.ok none, ⟨p, [], []⟩) := by
    simp [runPipeline, h1, h2, h3]
  simp [runMain, hp]

/-- Witness for C7 at a concrete environment whose routed and non-routed
fields yield no ASNs. -/
theorem c7_zero_asn_short_circuit_witness :
    runMain ⟨.ok ⟨[], some "", none⟩, fun _ => .error "nx", fun _ => .error "nx"⟩ =
      ⟨none, 0, [], []⟩ :=
  c7_zero_asn_short_circuit
    ⟨.ok ⟨[], some "", none⟩, fun _ => .error "nx", fun _ => .error "nx"⟩
    ⟨[], some "", none⟩ ⟨[], [], []⟩ [] rfl (by rfl) rfl

/-- C8: with suppression off, re-processing the same message list with the
same caller tag after a successful pass logs nothing new: every formatted
line is already in the `printedMessages` state, which is left unchanged. -/
theorem c8_dedup (caller : String) (msgs : List (String × String))
    (p p1 lg : List String)
    (h : processRIPEmessages caller msgs false p = .ok (p1, lg)) :
    processRIPEmessages caller msgs false p1 = .ok (p1, []) :=
  processRIPE_no_new caller msgs p1
    (fun sev text hm => processRIPE_fmt_mem caller msgs p p1 lg h sev text hm)

/-- Witness for C8: a second pass over a concrete already-logged info
message produces no new log line. -/
theorem c8_dedup_witness :
    processRIPEmessages "getCountryASNs" [("info", "hello")] false
      [fmtMsg "getCountryASNs" "info" "hello"] =
      .ok ([fmtMsg "getCountryASNs" "info" "hello"], []) :=
  c8_dedup "getCountryASNs" [("info", "hello")] []
    [fmtMsg "getCountryASNs" "info" "hello"] [fmtMsg "getCountryASNs" "info" "hello"]
    (by rfl)

/-- C9: the CSV encoder (spec-modelled; `csv-stringify` is a third-party
dependency) emits the fixed header row, four columns per record in the
order ASN, organization name, IPv4 count, IPv6 count, and quotes every
field containing a comma, quote character or newline, doubling embedded
quotes so that the encoding is invertible. -/
theorem c9_csv :
    (∀ rs : List ASNRecord,
      createCSV rs =
        "AS Number,Organization Name,Announced IPv4 Prefix Count,Announced IPv6 Prefix Count" ++
          "\n" ++ String.join (rs.map (fun r => csvRow r ++ "\n"))) ∧
    (∀ r : ASNRecord,
      csvRow r = csvQuoteField r.asn ++ "," ++ csvQuoteField r.asnOrg ++ "," ++
        csvQuoteField (toString r.prefixCount4) ++ "," ++
        csvQuoteField (toString r.prefixCount6)) ∧
    (∀ s : String, csvDecodeField (csvQuoteField s) = some s) ∧
    (∀ s : String, csvNeedsQuote s = true →
      csvQuoteField s = String.mk ('"' :: csvEscapeChars s.toList ++ ['"'])) := by
  refine ⟨fun rs => rfl, fun r => rfl, csvDecode_quote, fun s h => ?_⟩
  rw [csvQuoteField, if_pos h]

/-- Witness for C9 at an organization name containing a comma. -/
theorem c9_csv_witness :
    csvNeedsQuote "Acme, Inc." = true ∧
    csvQuoteField "Acme, Inc." =
      String.mk ('"' :: csvEscapeChars "Acme, Inc.".toList ++ ['"']) ∧
    csvDecodeField (csvQuoteField "Acme, Inc.") = some "Acme, Inc." :=
  ⟨by decide, c9_csv.2.2.2 "Acme, Inc." (by decide), c9_csv.2.2.1 "Acme, Inc."⟩

/-- C10: severity classification is on the lowercased severity string: any
severity lowercasing to `"error"` raises the error with the message text,
and any severity lowercasing to `"info"` is processed exactly as the
literal severity `"info"`. -/
theorem c10_case_insensitive (caller sev text : String)
    (rest : List (String × String)) (ig : Bool) (p : List String) :
    (jsToLower sev = "error" →
      processRIPEmessages caller ((sev, text) :: rest) ig p = .error text) ∧
    (jsToLower sev = "info" →
      processRIPEmessages caller ((sev, text) :: rest) ig p =
        processRIPEmessages caller (("info", text) :: rest) ig p) := by
  constructor
  · intro h
    rw [processRIPEmessages, if_pos h]
  · intro h
    have hne : ¬ jsToLower sev = "error" := by
      rw [h]
      decide
    have hinfo : jsToLower "info" = "info" := by decide
    have hne2 : ¬ jsToLower "info" = "error" := by decide
    have hfmt : fmtMsg caller sev text = fmtMsg caller "info" text := by
      rw [fmtMsg, fmtMsg, if_pos h, if_pos hinfo]
    rw [processRIPEmessages, if_neg hne, hfmt]
    conv_rhs => rw [processRIPEmessages, if_neg hne2]

/-- Witness for C10 at the severities `"ERROR"` and `"Info"`. -/
theorem c10_case_insensitive_witness :
    processRIPEmessages "f" [("ERROR", "boom")] false [] = .error "boom" ∧
    processRIPEmessages "f" [("Info", "hey")] false [] =
      processRIPEmessages "f" [("info", "hey")] false [] :=
  ⟨(c10_case_insensitive "f" "ERROR" "boom" [] false []).1 (by decide),
    (c10_case_insensitive "f" "Info" "hey" [] false []).2 (by decide)⟩
